import Mathlib

/-!
Verification of the backup lifecycle engine of `zomboid_backup_manager.py`.

The development shallowly embeds the core operations of the source file:
the resilient tree copier (`safe_copy_file`, `safe_copytree`, lines 267-319),
the snapshot listing and retention pruning (`cleanup_old_backups`,
lines 432-455), the backup operation (`perform_backup`, lines 380-416, and
its twin `perform_auto_backup`, lines 617-653), the restore operation
(`perform_restore`, lines 476-511) and the scheduler stop/callback pair
(`stop_auto_backup`, lines 581-589, `auto_backup_callback`, lines 606-615).

Filesystem trees are modelled as association lists from paths (lists of
name components; `os.path.join` is list append) to opaque content
identifiers.  Failures that in Python surface as exceptions (a failing
`shutil.copy2`, a failing `shutil.rmtree`, a `ValueError` from `int(...)`)
are modelled as explicit oracle inputs, since whether they occur is decided
by the surrounding OS state, not by the code under verification.
-/

namespace Zomboid

open scoped List

/-! ## Resilient copier: `safe_copy_file` (lines 267-279) and `safe_copytree` (lines 281-319)

A filesystem is an association list from file paths to content ids; a
write conses in front, so a later write shadows an earlier one, matching
`shutil.copy2`'s overwrite behaviour.  Directories are implicit (Python
creates them with `os.makedirs(..., exist_ok=True)`, which never fails on
an existing directory).  `os.walk(src)` enumerates the files strictly
below `src`; the walk listing (paths and the contents seen there) is taken
from the initial filesystem.  A per-file `shutil.copy2` failure (caught in
`safe_copy_file`, which then returns `False`) is modelled by the oracle
`failSet`; a tree-level exception before the walk (e.g. `os.makedirs(dst)`
at line 288 raising, caught at lines 317-319) is modelled by the oracle
`treeFail`. -/

abbrev FPath := List String

abbrev Fsys := List (FPath × Nat)

/-- Content found at a path: first matching entry of the association list. -/
def flookup : Fsys → FPath → Option Nat
  | [], _ => none
  | (q, c) :: rest, p => if p = q then some c else flookup rest p

/-- Writing a file: cons in front (later writes shadow earlier entries). -/
def fwrite (fs : Fsys) (p : FPath) (c : Nat) : Fsys := (p, c) :: fs

/-- `p` lies strictly below directory `d`. -/
def isStrictUnder (d p : FPath) : Bool := d.isPrefixOf p && decide (d.length < p.length)

/-- The files `os.walk src` visits: the files of `fs` strictly below `src`. -/
def walkFiles (fs : Fsys) (src : FPath) : List (FPath × Nat) :=
  fs.filter (fun e => isStrictUnder src e.1)

/-- The copying loop of `safe_copytree` (lines 291-312): for each walked
file, its mirrored path under `dst` is `dst ++ (path minus the `src`
prefix)`; a file in `failSet` raises inside `shutil.copy2`, is caught by
`safe_copy_file` (lines 277-279) and counted as failed, and the loop
continues with the next file.  Returns (filesystem, copied, failed). -/
def copyFiles (src dst : FPath) (failSet : List FPath) : Fsys → List (FPath × Nat) → Fsys × Nat × Nat
  | fs, [] => (fs, 0, 0)
  | fs, e :: rest =>
    if failSet.contains e.1 then
      let r := copyFiles src dst failSet fs rest
      (r.1, r.2.1, r.2.2 + 1)
    else
      let r := copyFiles src dst failSet (fwrite fs (dst ++ e.1.drop src.length) e.2) rest
      (r.1, r.2.1 + 1, r.2.2)

structure CopyOut where
  fs : Fsys
  ok : Bool
  copied : Nat
  failed : Nat
deriving DecidableEq

/-- `safe_copytree` (lines 281-319): on a tree-level exception nothing is
copied and `False` is returned (lines 317-319); otherwise the walk runs to
completion and the function returns `failed_files == 0` (line 315). -/
def safe_copytree (fs : Fsys) (src dst : FPath) (failSet : List FPath) (treeFail : Bool) : CopyOut :=
  if treeFail then { fs := fs, ok := false, copied := 0, failed := 0 }
  else
    let r := copyFiles src dst failSet fs (walkFiles fs src)
    { fs := r.1, ok := r.2.2 == 0, copied := r.2.1, failed := r.2.2 }

/-- Python's `s.startswith(pre)`, on the character lists of the strings. -/
def strStartsWith (s pre : String) : Bool := pre.data.isPrefixOf s.data

/-! ## Snapshot store and retention: `cleanup_old_backups` (lines 432-455)

The directory entries under `backup_root` are modelled as a list of
`Entry` (name, is-it-a-directory, creation time).  The listing at lines
439-443 keeps the directories whose name starts with `"Zomboid_Backup_"`;
line 446 sorts them newest-first by creation time (Python's sort with
`reverse=True`).  Line 436 parses the retention count with `int(...)`,
whose possible `ValueError` is modelled by `maxB = none` (the surrounding
`try` at lines 434/454 then swallows it, leaving the entries untouched).
Lines 449-452 delete the Python slice `backup_folders[max_backups:]`; a
failing `shutil.rmtree` raises out of the loop into the same `try`, so the
remaining deletions of the batch are not attempted. -/

structure Entry where
  name : String
  isDir : Bool
  ctime : Nat
deriving DecidableEq

/-- The filter at line 442: a directory whose name has the reserved
backup-name form. -/
def isSnapshotDir (e : Entry) : Bool := e.isDir && strStartsWith e.name "Zomboid_Backup_"

/-- Newest-first ordering on entries (line 446's sort key, reversed). -/
def ctimeDesc (a b : Entry) : Prop := b.ctime ≤ a.ctime

instance : DecidableRel ctimeDesc := fun a b => Nat.decLe b.ctime a.ctime

instance : IsTotal Entry ctimeDesc := ⟨fun a b => Nat.le_total b.ctime a.ctime⟩

instance : IsTrans Entry ctimeDesc := ⟨fun _ _ _ h1 h2 => Nat.le_trans h2 h1⟩

/-- The snapshot listing of lines 439-446: matching directories, sorted
newest-first by creation time. -/
def listingOf (entries : List Entry) : List Entry :=
  List.insertionSort ctimeDesc (entries.filter isSnapshotDir)

/-- Start index of the Python slice `l[k:]` on a list of length `n`:
clamped to `n` for large `k`, counted from the end for negative `k`. -/
def pyStart (k : Int) (n : Nat) : Nat :=
  if 0 ≤ k then k.toNat else n - min n (-k).toNat

/-- The deletion loop of lines 450-452.  `rmFail` is the set of snapshot
names on which `shutil.rmtree` raises.  Returns (successfully removed,
attempted): a raising `rmtree` is attempted but removes nothing and the
exception aborts the loop, so the rest of the batch is never attempted. -/
def deleteLoop (rmFail : List String) : List Entry → List Entry × List Entry
  | [] => ([], [])
  | s :: rest =>
    if rmFail.contains s.name then ([], [s])
    else
      let r := deleteLoop rmFail rest
      (s :: r.1, s :: r.2)

/-- `cleanup_old_backups` (lines 432-455): returns the entries remaining
under `backup_root`.  `maxB = none` models `int(max_backups)` raising
`ValueError` at line 436, caught at line 454 with nothing done. -/
def cleanup_old_backups (maxB : Option Int) (entries : List Entry) (rmFail : List String) : List Entry :=
  match maxB with
  | none => entries
  | some k =>
    let sorted := listingOf entries
    if (sorted.length : Int) > k then
      let batch := sorted.drop (pyStart k sorted.length)
      let removed := (deleteLoop rmFail batch).1
      entries.filter (fun e => !(removed.map Entry.name).contains e.name)
    else entries

/-! ## Backup operation: `perform_backup` (lines 380-416) and
`perform_auto_backup` (lines 617-653)

Both functions run the same filesystem logic (they differ only in the UI
messages they post): check that the source exists (lines 387-389 / 624-627)
and abort with no write when it does not; create the backup root (line 392 /
630); build the snapshot name `"Zomboid_Backup_" ++ timestamp` (lines
395-396 / 633-634); copy via `safe_copytree`, which creates the snapshot
directory and only warns on a partial copy (lines 400-403 / 637-640); and
finally prune via `cleanup_old_backups` (line 409 / 646).  `copyOk` is the
boolean returned by `safe_copytree`; `ct` the creation time the new
snapshot directory receives. -/

inductive BackupOutcome where
  | sourceMissing
  | completed (partialCopy : Bool)
deriving DecidableEq

structure FsBState where
  sourceExists : Bool
  rootExists : Bool
  entries : List Entry
deriving DecidableEq

def snapName (ts : String) : String := "Zomboid_Backup_" ++ ts

def snapEntry (ts : String) (ct : Nat) : Entry := ⟨snapName ts, true, ct⟩

def perform_backup (st : FsBState) (ts : String) (ct : Nat) (copyOk : Bool)
    (maxB : Option Int) (rmFail : List String) : FsBState × BackupOutcome :=
  if !st.sourceExists then (st, .sourceMissing)
  else
    let entries1 := st.entries ++ [snapEntry ts ct]
    let entries2 := cleanup_old_backups maxB entries1 rmFail
    ({ sourceExists := st.sourceExists, rootExists := true, entries := entries2 },
     .completed (!copyOk))

/-! ## Restore operation: `perform_restore` (lines 476-511)

The state tracks the content at `source_path` (as an opaque content id,
`none` when the directory is absent) and the safety copies made before
restores.  The snapshot being restored is given as its directory listing
(`os.listdir` order) plus a content id for the snapshot directory as a
whole.  The whole body sits in one `try` (lines 478-509), so an exception
at any step aborts the remaining steps; the three failure points —
`shutil.copytree` to the safety path (line 484), `shutil.rmtree` of the
source (line 489), and the final `shutil.copytree` (lines 501/504) — are
modelled by the oracles `fail1`, `fail2`, `fail3`, each failing atomically
(leaving its own step without effect). -/

structure SnapEntry where
  name : String
  isDir : Bool
  content : Nat
deriving DecidableEq

structure Snapshot where
  entries : List SnapEntry
  whole : Nat
deriving DecidableEq

structure RestoreFs where
  source : Option Nat
  safetyCopies : List (String × Nat)
deriving DecidableEq

inductive RestoreStep where
  | safetyCopy
  | removeSource
  | restoreCopy
deriving DecidableEq

inductive RestoreOutcome where
  | ok
  | failed (step : RestoreStep)
deriving DecidableEq

/-- The safety-copy path of line 483:
`f"{source_path}_backup_before_restore_{timestamp}"`. -/
def safetyName (sourcePath ts : String) : String :=
  sourcePath ++ "_backup_before_restore_" ++ ts

/-- The scan of lines 493-498: the first `listdir` item that is a
directory named exactly `"Sandbox"`. -/
def findSandbox (snap : Snapshot) : Option SnapEntry :=
  snap.entries.find? (fun e => e.isDir && e.name == "Sandbox")

/-- The content placed at `source_path` by lines 500-504: the inner
`Sandbox` directory when one exists, the whole snapshot otherwise. -/
def restoredContent (snap : Snapshot) : Nat :=
  match findSandbox snap with
  | some e => e.content
  | none => snap.whole

def perform_restore (fs : RestoreFs) (sourcePath ts : String) (snap : Snapshot)
    (fail1 fail2 fail3 : Bool) : RestoreFs × RestoreOutcome :=
  match fs.source with
  | some cur =>
    if fail1 then (fs, .failed .safetyCopy)
    else
      let fs1 : RestoreFs :=
        { fs with safetyCopies := (safetyName sourcePath ts, cur) :: fs.safetyCopies }
      if fail2 then (fs1, .failed .removeSource)
      else
        let fs2 : RestoreFs := { fs1 with source := none }
        if fail3 then (fs2, .failed .restoreCopy)
        else ({ fs2 with source := some (restoredContent snap) }, .ok)
  | none =>
    if fail3 then (fs, .failed .restoreCopy)
    else ({ fs with source := some (restoredContent snap) }, .ok)

/-! ## Scheduler: `stop_auto_backup` (lines 581-589) and
`auto_backup_callback` (lines 606-615)

The scheduler state is the `auto_backup_active` flag and the pending
timer handle `auto_backup_timer`.  `stop_auto_backup` clears the flag and
cancels any armed timer; `auto_backup_callback` (the function the timer
invokes) returns early without starting a backup thread when the flag is
cleared — the returned boolean records whether a backup thread was
started (line 613). -/

structure SchedState where
  active : Bool
  timer : Option Nat
deriving DecidableEq

def stop_auto_backup (_s : SchedState) : SchedState :=
  { active := false, timer := none }

def auto_backup_callback (s : SchedState) : SchedState × Bool :=
  if !s.active then (s, false) else (s, true)

/-! ## Helper lemmas about the copier -/

theorem copyFiles_counts (src dst : FPath) (failSet : List FPath) (l : List (FPath × Nat)) :
    ∀ fs : Fsys,
      (copyFiles src dst failSet fs l).2.1 + (copyFiles src dst failSet fs l).2.2 = l.length := by
  induction l with
  | nil => intro fs; rfl
  | cons e rest ih =>
    intro fs
    simp only [copyFiles]
    split
    · have h := ih fs
      simp only [List.length_cons]
      omega
    · have h := ih (fwrite fs (dst ++ e.1.drop src.length) e.2)
      simp only [List.length_cons]
      omega

theorem copyFiles_failed_count (src dst : FPath) (failSet : List FPath) (l : List (FPath × Nat)) :
    ∀ fs : Fsys,
      (copyFiles src dst failSet fs l).2.2
        = (l.filter (fun e => failSet.contains e.1)).length := by
  induction l with
  | nil => intro fs; rfl
  | cons e rest ih =>
    intro fs
    simp only [copyFiles, List.filter_cons]
    by_cases hc : e.1 ∈ failSet
    · simp [hc, ih fs]
    · simp [hc, ih (fwrite fs (dst ++ e.1.drop src.length) e.2)]

theorem flookup_fwrite_ne (fs : Fsys) (q : FPath) (c : Nat) (p : FPath) (h : p ≠ q) :
    flookup (fwrite fs q c) p = flookup fs p := by
  simp [fwrite, flookup, h]

theorem copyFiles_lookup_unwritten (src dst : FPath) (failSet : List FPath) (p : FPath)
    (l : List (FPath × Nat)) :
    ∀ fs : Fsys, (∀ e ∈ l, p ≠ dst ++ e.1.drop src.length) →
      flookup (copyFiles src dst failSet fs l).1 p = flookup fs p := by
  induction l with
  | nil => intro fs _; rfl
  | cons e rest ih =>
    intro fs hp
    simp only [copyFiles]
    split
    · exact ih fs (fun x hx => hp x (List.mem_cons_of_mem _ hx))
    · rw [ih (fwrite fs (dst ++ e.1.drop src.length) e.2)
        (fun x hx => hp x (List.mem_cons_of_mem _ hx))]
      exact flookup_fwrite_ne fs _ e.2 p (hp e (List.mem_cons_self _ _))

theorem copyFiles_lookup_copied (src dst : FPath) (failSet : List FPath)
    (l : List (FPath × Nat)) :
    ∀ fs : Fsys, (∀ x ∈ l, src <+: x.1) → ((l.map Prod.fst).Nodup) →
      ∀ e ∈ l, failSet.contains e.1 = false →
        flookup (copyFiles src dst failSet fs l).1 (dst ++ e.1.drop src.length) = some e.2 := by
  induction l with
  | nil => intro fs _ _ e he; exact absurd he (List.not_mem_nil e)
  | cons a rest ih =>
    intro fs hpre hnd e he hef
    have hnd' : (rest.map Prod.fst).Nodup := (List.nodup_cons.mp hnd).2
    have hpre' : ∀ x ∈ rest, src <+: x.1 := fun x hx => hpre x (List.mem_cons_of_mem _ hx)
    rcases List.mem_cons.mp he with rfl | hrest
    · have hmem : e.1 ∉ failSet := by simpa using hef
      have hcond : ¬ (failSet.contains e.1 = true) := by simpa using hmem
      have hside : ∀ x ∈ rest, (dst ++ e.1.drop src.length) ≠ dst ++ x.1.drop src.length := by
        intro x hx hcontra
        have hx1 : src <+: x.1 := hpre' x hx
        have he1 : src <+: e.1 := hpre e (List.mem_cons_self _ _)
        obtain ⟨te, hte⟩ := he1
        obtain ⟨tx, htx⟩ := hx1
        have hdd : e.1.drop src.length = x.1.drop src.length := List.append_cancel_left hcontra
        rw [← hte, ← htx] at hdd
        rw [List.drop_left, List.drop_left] at hdd
        have hx1e : x.1 = e.1 := by rw [← hte, ← htx, hdd]
        have : e.1 ∈ rest.map Prod.fst := hx1e ▸ List.mem_map_of_mem Prod.fst hx
        exact (List.nodup_cons.mp hnd).1 this
      simp only [copyFiles, if_neg hcond]
      rw [copyFiles_lookup_unwritten src dst failSet _ rest
        (fwrite fs (dst ++ e.1.drop src.length) e.2) hside]
      simp [fwrite, flookup]
    · simp only [copyFiles]
      split
      · exact ih fs hpre' hnd' e hrest hef
      · exact ih (fwrite fs (dst ++ a.1.drop src.length) a.2) hpre' hnd' e hrest hef

theorem mem_walkFiles (fs : Fsys) (src : FPath) (e : FPath × Nat) (he : e ∈ walkFiles fs src) :
    src <+: e.1 ∧ src.length < e.1.length := by
  have h := (List.mem_filter.mp he).2
  simp only [isStrictUnder, Bool.and_eq_true, decide_eq_true_eq] at h
  exact ⟨List.isPrefixOf_iff_prefix.mp h.1, h.2⟩

/-- Any path whose content changes under `safe_copytree` is strictly below
`dst` (the copier writes nowhere else). -/
theorem safe_copytree_changed_under_dst (fs : Fsys) (src dst : FPath) (failSet : List FPath)
    (treeFail : Bool) (p : FPath)
    (hchanged : flookup (safe_copytree fs src dst failSet treeFail).fs p ≠ flookup fs p) :
    dst <+: p ∧ dst.length < p.length := by
  by_cases ht : treeFail
  · exact absurd (by simp [safe_copytree, ht]) hchanged
  · simp only [safe_copytree, if_neg ht] at hchanged
    by_cases hall : ∀ e ∈ walkFiles fs src, p ≠ dst ++ e.1.drop src.length
    · exact absurd (copyFiles_lookup_unwritten src dst failSet p _ fs hall) hchanged
    · push_neg at hall
      obtain ⟨e, he, hpe⟩ := hall
      obtain ⟨hpre, hlen⟩ := mem_walkFiles fs src e he
      obtain ⟨t, ht'⟩ := hpre
      have htne : e.1.drop src.length = t := by rw [← ht', List.drop_left]
      constructor
      · rw [hpe]; exact List.prefix_append dst _
      · rw [hpe, List.length_append, htne]
        have h0 : 0 < t.length := by
          cases t with
          | nil =>
            rw [List.append_nil] at ht'
            rw [← ht'] at hlen
            omega
          | cons x xs => simp
        omega

/-! ## Claim C3 -/

/-- Claim C3: when no tree-level exception occurs, `safe_copytree` catches
each per-file copy failure, counts it as failed, and still attempts every
remaining file: the counts add up to the number of files walked, the
failed count is exactly the number of walked files whose copy fails, and
the snapshot under `dst` contains every walked file that did not fail,
with its source content.  (`hnd`: a directory walk lists each file path
once; `hsep`: the two trees are disjoint, as the copier reads `src` while
writing `dst`.) -/
theorem safe_copytree_partial_failure (fs : Fsys) (src dst : FPath) (failSet : List FPath)
    (hnd : ((walkFiles fs src).map Prod.fst).Nodup)
    (hsep : ¬ src <+: dst ∧ ¬ dst <+: src) :
    (safe_copytree fs src dst failSet false).copied + (safe_copytree fs src dst failSet false).failed
        = (walkFiles fs src).length
    ∧ (safe_copytree fs src dst failSet false).failed
        = ((walkFiles fs src).filter (fun e => failSet.contains e.1)).length
    ∧ ∀ e ∈ walkFiles fs src, failSet.contains e.1 = false →
        flookup (safe_copytree fs src dst failSet false).fs (dst ++ e.1.drop src.length)
          = some e.2 := by
  refine ⟨?_, ?_, ?_⟩
  · simpa [safe_copytree] using copyFiles_counts src dst failSet (walkFiles fs src) fs
  · simpa [safe_copytree] using copyFiles_failed_count src dst failSet (walkFiles fs src) fs
  · intro e he hef
    have := copyFiles_lookup_copied src dst failSet (walkFiles fs src) fs
      (fun x hx => (mem_walkFiles fs src x hx).1) hnd e he hef
    simpa [safe_copytree] using this

/-- Witness for C3: two files under `src`, one of which fails; the counts
are 1 copied + 1 failed = 2 walked, and the non-failed file is present in
the snapshot. -/
theorem safe_copytree_partial_failure_witness :
    (((walkFiles [(["s", "f1"], 1), (["s", "f2"], 2)] ["s"]).map Prod.fst).Nodup
      ∧ ¬ (["s"] : FPath) <+: ["d"] ∧ ¬ (["d"] : FPath) <+: ["s"])
    ∧ flookup (safe_copytree [(["s", "f1"], 1), (["s", "f2"], 2)] ["s"] ["d"]
          [["s", "f1"]] false).fs (["d"] ++ (["s", "f2"] : FPath).drop (["s"] : FPath).length)
        = some 2 :=
  ⟨⟨by decide, by decide, by decide⟩,
    (safe_copytree_partial_failure [(["s", "f1"], 1), (["s", "f2"], 2)] ["s"] ["d"]
      [["s", "f1"]] (by decide) ⟨by decide, by decide⟩).2.2
      (["s", "f2"], 2) (by decide) (by decide)⟩

/-! ## Claim C7 -/

/-- Counterexample to claim C7 as stated: a tree-level exception (here the
`os.makedirs(dst)` of line 288 raising, caught at lines 317-319) makes
`safe_copytree` report overall failure although `filesFailed = 0`: no
per-file copy failed. -/
theorem safe_copytree_failed_report_cex :
    (safe_copytree [(["s", "a"], 1)] ["s"] ["d"] [] true).ok = false
    ∧ (safe_copytree [(["s", "a"], 1)] ["s"] ["d"] [] true).failed = 0 := by
  decide

/-- Claim C7 (amended): in the absence of a tree-level exception,
`safe_copytree` reports overall failure exactly when at least one per-file
copy failed. -/
theorem safe_copytree_failed_iff (fs : Fsys) (src dst : FPath) (failSet : List FPath) :
    (safe_copytree fs src dst failSet false).ok = false
      ↔ 0 < (safe_copytree fs src dst failSet false).failed := by
  simp only [safe_copytree, if_neg (by simp : ¬ (false = true))]
  constructor
  · intro h
    have := of_decide_eq_false (by simpa using h)
    omega
  · intro h
    simp only [beq_eq_false_iff_ne]
    omega

/-! ## Claim C9 -/

/-- Counterexample to claim C9 as stated: with `dst` inside `src`
(nothing in the code rules this out), the copy creates a new file below
`src`, so `src`'s subtree is changed by the operation. -/
theorem safe_copytree_modifies_src_cex :
    (["a"] : FPath) <+: ["a", "b", "f"]
    ∧ flookup (safe_copytree [(["a", "f"], 1)] ["a"] ["a", "b"] [] false).fs ["a", "b", "f"]
        ≠ flookup [(["a", "f"], 1)] ["a", "b", "f"] := by
  decide

/-- Claim C9 (amended): provided neither of `src` and `dst` lies inside
the other, `safe_copytree` creates entries only strictly below `dst`, and
the `src` subtree is unchanged by the operation. -/
theorem safe_copytree_frame (fs : Fsys) (src dst : FPath) (failSet : List FPath)
    (treeFail : Bool) (hsep1 : ¬ src <+: dst) (hsep2 : ¬ dst <+: src) :
    (∀ p, flookup (safe_copytree fs src dst failSet treeFail).fs p ≠ flookup fs p →
        dst <+: p ∧ dst.length < p.length)
    ∧ ∀ p, src <+: p →
        flookup (safe_copytree fs src dst failSet treeFail).fs p = flookup fs p := by
  refine ⟨fun p h => safe_copytree_changed_under_dst fs src dst failSet treeFail p h, ?_⟩
  intro p hp
  by_contra hch
  have hdst : dst <+: p :=
    (safe_copytree_changed_under_dst fs src dst failSet treeFail p hch).1
  rcases List.prefix_or_prefix_of_prefix hp hdst with h | h
  · exact hsep1 h
  · exact hsep2 h

/-- Witness for C9 (amended): disjoint `src` and `dst`; the file under
`src` is unchanged after the copy. -/
theorem safe_copytree_frame_witness :
    (¬ (["a"] : FPath) <+: ["b"]) ∧ (¬ (["b"] : FPath) <+: ["a"])
    ∧ flookup (safe_copytree [(["a", "f"], 1)] ["a"] ["b"] [] false).fs ["a", "f"]
        = flookup [(["a", "f"], 1)] ["a", "f"] :=
  ⟨by decide, by decide,
    (safe_copytree_frame [(["a", "f"], 1)] ["a"] ["b"] [] false
      (by decide) (by decide)).2 ["a", "f"] (by decide)⟩

/-! ## Claim C2 -/

/-- Claim C2: if the source directory does not exist, the backup fails
immediately with the source-missing error and the filesystem state is
completely unchanged — the backup root is not created and no snapshot
directory (not even an empty one) appears. -/
theorem perform_backup_source_missing (st : FsBState) (ts : String) (ct : Nat)
    (copyOk : Bool) (maxB : Option Int) (rmFail : List String)
    (h : st.sourceExists = false) :
    perform_backup st ts ct copyOk maxB rmFail = (st, .sourceMissing) := by
  simp [perform_backup, h]

/-- Witness for C2: a concrete state with a missing source and a
not-yet-existing backup root; the operation reports the error and the
state is returned untouched. -/
theorem perform_backup_source_missing_witness :
    (FsBState.sourceExists ⟨false, false, [⟨"Zomboid_Backup_t1", true, 1⟩]⟩ = false)
    ∧ perform_backup ⟨false, false, [⟨"Zomboid_Backup_t1", true, 1⟩]⟩ "t2" 2 true (some 10) []
        = (⟨false, false, [⟨"Zomboid_Backup_t1", true, 1⟩]⟩, .sourceMissing) :=
  ⟨rfl, perform_backup_source_missing ⟨false, false, [⟨"Zomboid_Backup_t1", true, 1⟩]⟩
    "t2" 2 true (some 10) [] rfl⟩

/-! ## Claim C4 -/

/-- Counterexample to claim C4 as stated: with `maxBackups = 1` and three
snapshots, the over-limit batch is the two oldest; `shutil.rmtree` raising
on the first one aborts the loop (the exception is only caught at the
whole-cleanup level, lines 434/454), so the second over-limit snapshot is
never attempted. -/
theorem cleanup_deletion_abort_cex :
    (⟨"Zomboid_Backup_t1", true, 1⟩ : Entry)
        ∈ (listingOf [⟨"Zomboid_Backup_t1", true, 1⟩, ⟨"Zomboid_Backup_t2", true, 2⟩,
            ⟨"Zomboid_Backup_t3", true, 3⟩]).drop (pyStart 1 3)
    ∧ (⟨"Zomboid_Backup_t1", true, 1⟩ : Entry)
        ∉ (deleteLoop ["Zomboid_Backup_t2"]
            ((listingOf [⟨"Zomboid_Backup_t1", true, 1⟩, ⟨"Zomboid_Backup_t2", true, 2⟩,
              ⟨"Zomboid_Backup_t3", true, 3⟩]).drop (pyStart 1 3))).2 := by
  decide

theorem deleteLoop_eq (rmFail : List String) (l : List Entry) :
    deleteLoop rmFail l
      = (l.takeWhile (fun s => !rmFail.contains s.name),
         l.takeWhile (fun s => !rmFail.contains s.name)
           ++ (l.dropWhile (fun s => !rmFail.contains s.name)).take 1) := by
  induction l with
  | nil => rfl
  | cons s rest ih =>
    by_cases hc : s.name ∈ rmFail
    · simp [deleteLoop, List.takeWhile_cons, List.dropWhile_cons, hc]
    · simp [deleteLoop, List.takeWhile_cons, List.dropWhile_cons, hc, ih]

/-- Claim C4 (amended): during retention pruning, the deletion loop
removes the over-limit snapshots up to the first deletion failure; that
failure is attempted but aborts the remaining deletions of the batch (they
are never attempted).  The failure never aborts the enclosing backup: the
exception is swallowed by the cleanup and the backup operation still
reports completion. -/
theorem cleanup_deletion_failure (rmFail : List String) (l : List Entry)
    (st : FsBState) (ts : String) (ct : Nat) (copyOk : Bool) (maxB : Option Int)
    (hsrc : st.sourceExists = true) :
    (deleteLoop rmFail l).1 = l.takeWhile (fun s => !rmFail.contains s.name)
    ∧ (deleteLoop rmFail l).2
        = l.takeWhile (fun s => !rmFail.contains s.name)
          ++ (l.dropWhile (fun s => !rmFail.contains s.name)).take 1
    ∧ (perform_backup st ts ct copyOk maxB rmFail).2 = .completed (!copyOk) := by
  refine ⟨by rw [deleteLoop_eq], by rw [deleteLoop_eq], ?_⟩
  simp [perform_backup, hsrc]

/-- Witness for C4 (amended): a two-element batch whose first deletion
fails; only the first is attempted, nothing is removed, and the backup
reports completion. -/
theorem cleanup_deletion_failure_witness :
    (FsBState.sourceExists ⟨true, true, []⟩ = true)
    ∧ (deleteLoop ["Zomboid_Backup_t2"]
          [⟨"Zomboid_Backup_t2", true, 2⟩, ⟨"Zomboid_Backup_t1", true, 1⟩]).1
        = ([⟨"Zomboid_Backup_t2", true, 2⟩,
            ⟨"Zomboid_Backup_t1", true, 1⟩] : List Entry).takeWhile
            (fun s => !(["Zomboid_Backup_t2"] : List String).contains s.name)
    ∧ (perform_backup ⟨true, true, []⟩ "t3" 3 true (some 1) ["Zomboid_Backup_t2"]).2
        = .completed (!true) :=
  ⟨rfl,
    (cleanup_deletion_failure ["Zomboid_Backup_t2"]
      [⟨"Zomboid_Backup_t2", true, 2⟩, ⟨"Zomboid_Backup_t1", true, 1⟩]
      ⟨true, true, []⟩ "t3" 3 true (some 1) rfl).1,
    (cleanup_deletion_failure ["Zomboid_Backup_t2"]
      [⟨"Zomboid_Backup_t2", true, 2⟩, ⟨"Zomboid_Backup_t1", true, 1⟩]
      ⟨true, true, []⟩ "t3" 3 true (some 1) rfl).2.2⟩

/-! ## Claim C6 -/

/-- Counterexample to claim C6 as stated: with a non-integer `maxBackups`
value (`int(...)` raising `ValueError`, modelled by `maxB = none`) and an
existing source, the backup is not rejected up front: it completes and
changes the filesystem (the backup root and a new snapshot directory are
created). -/
theorem invalid_retention_cex :
    (perform_backup ⟨true, false, []⟩ "t1" 1 true none []).1 ≠ ⟨true, false, []⟩
    ∧ (perform_backup ⟨true, false, []⟩ "t1" 1 true none []).2 = .completed false := by
  decide

/-- Claim C6 (amended): a non-integer `maxBackups` value is not validated
before the backup starts.  The backup proceeds normally — the backup root
is created and the new snapshot directory appears — and only the retention
pruning is skipped (its `ValueError` is caught and logged inside
`cleanup_old_backups`), so no snapshot is deleted. -/
theorem invalid_retention_not_validated (st : FsBState) (ts : String) (ct : Nat)
    (copyOk : Bool) (rmFail : List String) (hsrc : st.sourceExists = true) :
    perform_backup st ts ct copyOk none rmFail
      = (⟨true, true, st.entries ++ [snapEntry ts ct]⟩, .completed (!copyOk)) := by
  simp [perform_backup, hsrc, cleanup_old_backups]

/-- Witness for C6 (amended). -/
theorem invalid_retention_not_validated_witness :
    (FsBState.sourceExists ⟨true, false, [⟨"Zomboid_Backup_t1", true, 1⟩]⟩ = true)
    ∧ perform_backup ⟨true, false, [⟨"Zomboid_Backup_t1", true, 1⟩]⟩ "t2" 2 true none []
        = (⟨true, true, [⟨"Zomboid_Backup_t1", true, 1⟩] ++ [snapEntry "t2" 2]⟩,
           .completed (!true)) :=
  ⟨rfl, invalid_retention_not_validated ⟨true, false, [⟨"Zomboid_Backup_t1", true, 1⟩]⟩
    "t2" 2 true [] rfl⟩

/-! ## Claim C8 -/

/-- Claim C8: calling `stop_auto_backup` while the scheduler is running
puts it in the stopped state and cancels the armed timer; the timer
callback started for a stopped scheduler returns without starting a backup
(and leaves the state unchanged), so the cancelled timer can never trigger
a backup. -/
theorem stop_auto_backup_stops (s : SchedState) (h : s.active = true) :
    (stop_auto_backup s).active = false
    ∧ (stop_auto_backup s).timer = none
    ∧ auto_backup_callback (stop_auto_backup s) = (stop_auto_backup s, false)
    ∧ ∀ s' : SchedState, s'.active = false → auto_backup_callback s' = (s', false) := by
  refine ⟨rfl, rfl, rfl, ?_⟩
  intro s' h'
  simp [auto_backup_callback, h']

/-- Witness for C8: a running scheduler with an armed timer. -/
theorem stop_auto_backup_stops_witness :
    (SchedState.active ⟨true, some 7⟩ = true)
    ∧ (stop_auto_backup ⟨true, some 7⟩).active = false
    ∧ (stop_auto_backup ⟨true, some 7⟩).timer = none
    ∧ auto_backup_callback (stop_auto_backup ⟨true, some 7⟩)
        = (stop_auto_backup ⟨true, some 7⟩, false) :=
  ⟨rfl, (stop_auto_backup_stops ⟨true, some 7⟩ rfl).1,
    (stop_auto_backup_stops ⟨true, some 7⟩ rfl).2.1,
    (stop_auto_backup_stops ⟨true, some 7⟩ rfl).2.2.1⟩

/-! ## Claim C5 -/

/-- Claim C5: the restore runs its steps in the specified order, each a
failure point that aborts the remainder.  With an existing source: a
failing safety copy (step 1) leaves everything unchanged; after a
successful safety copy, a failing source removal (step 2) leaves the
source in place; after removal, a failing restore copy (step 3) leaves the
source absent (only the safety copy remains); on full success the source
holds the restored content.  With an absent source, steps 1 and 2 are
no-ops.  The restored content is the first `listdir` entry that is a
directory named `"Sandbox"` when one exists, and the snapshot directory
itself otherwise. -/
theorem perform_restore_steps (fs : RestoreFs) (sourcePath ts : String) (snap : Snapshot)
    (fail1 fail2 fail3 : Bool) :
    (∀ c : Nat, fs.source = some c →
      (fail1 = true →
        perform_restore fs sourcePath ts snap fail1 fail2 fail3 = (fs, .failed .safetyCopy))
      ∧ (fail1 = false → fail2 = true →
        perform_restore fs sourcePath ts snap fail1 fail2 fail3
          = ({ fs with safetyCopies := (safetyName sourcePath ts, c) :: fs.safetyCopies },
             .failed .removeSource))
      ∧ (fail1 = false → fail2 = false → fail3 = true →
        perform_restore fs sourcePath ts snap fail1 fail2 fail3
          = (⟨none, (safetyName sourcePath ts, c) :: fs.safetyCopies⟩, .failed .restoreCopy))
      ∧ (fail1 = false → fail2 = false → fail3 = false →
        perform_restore fs sourcePath ts snap fail1 fail2 fail3
          = (⟨some (restoredContent snap), (safetyName sourcePath ts, c) :: fs.safetyCopies⟩,
             .ok)))
    ∧ (fs.source = none → fail3 = false →
        perform_restore fs sourcePath ts snap fail1 fail2 fail3
          = ({ fs with source := some (restoredContent snap) }, .ok))
    ∧ ((∀ e ∈ snap.entries, ¬ (e.isDir = true ∧ e.name = "Sandbox")) →
        restoredContent snap = snap.whole)
    ∧ (∀ e, findSandbox snap = some e →
        e.isDir = true ∧ e.name = "Sandbox" ∧ restoredContent snap = e.content) := by
  refine ⟨?_, ?_, ?_, ?_⟩
  · intro c hc
    refine ⟨fun h1 => ?_, fun h1 h2 => ?_, fun h1 h2 h3 => ?_, fun h1 h2 h3 => ?_⟩ <;>
      simp [perform_restore, hc, h1] <;> simp [h2] <;> simp [h3]
  · intro hc h3
    simp [perform_restore, hc, h3]
  · intro hnone
    have : findSandbox snap = none := by
      rw [findSandbox, List.find?_eq_none]
      intro e he
      simp only [Bool.and_eq_true, beq_iff_eq]
      intro hcon
      exact hnone e he ⟨hcon.1, hcon.2⟩
    simp [restoredContent, this]
  · intro e he
    have hp := List.find?_some he
    simp only [Bool.and_eq_true, beq_iff_eq] at hp
    refine ⟨hp.1, hp.2, ?_⟩
    simp [restoredContent, he]

/-- Witness for C5: an existing source and a snapshot containing an inner
`Sandbox` directory; the full restore succeeds, records the safety copy
and places the inner directory's content at the source. -/
theorem perform_restore_steps_witness :
    (RestoreFs.source ⟨some 5, []⟩ = some 5)
    ∧ perform_restore ⟨some 5, []⟩ "p" "t" ⟨[⟨"Sandbox", true, 9⟩], 7⟩ false false false
        = (⟨some (restoredContent ⟨[⟨"Sandbox", true, 9⟩], 7⟩), [(safetyName "p" "t", 5)]⟩,
           .ok) :=
  ⟨rfl, ((perform_restore_steps ⟨some 5, []⟩ "p" "t" ⟨[⟨"Sandbox", true, 9⟩], 7⟩
    false false false).1 5 rfl).2.2.2 rfl rfl rfl⟩

/-! ## Helper lemmas about retention pruning -/

theorem takeWhile_all {α : Type} {p : α → Bool} {l : List α} (h : ∀ a ∈ l, p a = true) :
    l.takeWhile p = l := by
  induction l with
  | nil => rfl
  | cons a rest ih =>
    rw [List.takeWhile_cons, if_pos (h a (List.mem_cons_self _ _)),
      ih (fun x hx => h x (List.mem_cons_of_mem _ hx))]

/-- Removing (by name) exactly the entries of `S.drop m` from a
permutation `L` of `S` leaves a permutation of `S.take m`, provided the
names in `S` are distinct. -/
theorem retained_filter_perm (L S : List Entry) (m : Nat) (hperm : S ~ L)
    (hnd : (S.map Entry.name).Nodup) :
    L.filter (fun e => !(((S.drop m).map Entry.name).contains e.name)) ~ S.take m := by
  have h1 : L.filter (fun e => !(((S.drop m).map Entry.name).contains e.name))
      ~ S.filter (fun e => !(((S.drop m).map Entry.name).contains e.name)) :=
    (hperm.filter _).symm
  have h2 : (S.take m).filter (fun e => !(((S.drop m).map Entry.name).contains e.name))
        ++ (S.drop m).filter (fun e => !(((S.drop m).map Entry.name).contains e.name))
      = S.filter (fun e => !(((S.drop m).map Entry.name).contains e.name)) := by
    rw [← List.filter_append, List.take_append_drop]
  have h3 : (S.drop m).filter (fun e => !(((S.drop m).map Entry.name).contains e.name))
      = [] := by
    rw [List.filter_eq_nil_iff]
    intro a ha
    have hm' : a.name ∈ (S.drop m).map Entry.name := List.mem_map_of_mem _ ha
    rw [List.map_drop] at hm'
    simp [hm']
  have h4 : (S.take m).filter (fun e => !(((S.drop m).map Entry.name).contains e.name))
      = S.take m := by
    rw [List.filter_eq_self]
    intro a ha
    have hmem : a.name ∈ (S.take m).map Entry.name := List.mem_map_of_mem _ ha
    have hnodup : ((S.take m).map Entry.name ++ (S.drop m).map Entry.name).Nodup := by
      rw [← List.map_append, List.take_append_drop]
      exact hnd
    have hdisj := (List.nodup_append.mp hnodup).2.2
    have hnot : a.name ∉ (S.drop m).map Entry.name := fun hmem2 => hdisj hmem hmem2
    rw [List.map_drop] at hnot
    simp [hnot]
  rw [← h2, h3, h4, List.append_nil] at h1
  exact h1

/-- The matching directories remaining after `cleanup_old_backups` with a
parsed retention count `k` and no deletion failure in the pruned batch are
a permutation of the first `pyStart k n` elements of the newest-first
snapshot listing. -/
theorem cleanup_retained_perm (entries : List Entry) (rmFail : List String) (k : Int)
    (hnd : ((listingOf entries).map Entry.name).Nodup)
    (hfail : ∀ s ∈ (listingOf entries).drop (pyStart k (listingOf entries).length),
        s.name ∉ rmFail) :
    (cleanup_old_backups (some k) entries rmFail).filter isSnapshotDir
      ~ (listingOf entries).take (pyStart k (listingOf entries).length) := by
  by_cases hguard : ((listingOf entries).length : Int) > k
  · have hremoved : (deleteLoop rmFail ((listingOf entries).drop
        (pyStart k (listingOf entries).length))).1
        = (listingOf entries).drop (pyStart k (listingOf entries).length) := by
      rw [deleteLoop_eq]
      exact takeWhile_all (fun a ha => by simp [hfail a ha])
    have hcleanup : cleanup_old_backups (some k) entries rmFail
        = entries.filter (fun e =>
            !((((listingOf entries).drop (pyStart k (listingOf entries).length)).map
              Entry.name).contains e.name)) := by
      simp only [cleanup_old_backups]
      rw [if_pos hguard, hremoved]
    rw [hcleanup]
    have hff : (entries.filter (fun e =>
          !((((listingOf entries).drop (pyStart k (listingOf entries).length)).map
            Entry.name).contains e.name))).filter isSnapshotDir
        = (entries.filter isSnapshotDir).filter (fun e =>
            !((((listingOf entries).drop (pyStart k (listingOf entries).length)).map
              Entry.name).contains e.name)) := by
      rw [List.filter_filter, List.filter_filter]
      exact List.filter_congr (fun a _ => by rw [Bool.and_comm])
    rw [hff]
    exact retained_filter_perm (entries.filter isSnapshotDir) (listingOf entries) _
      (List.perm_insertionSort ctimeDesc _) hnd
  · have hcleanup : cleanup_old_backups (some k) entries rmFail = entries := by
      simp only [cleanup_old_backups]
      rw [if_neg hguard]
    rw [hcleanup]
    have hle : ((listingOf entries).length : Int) ≤ k := not_lt.mp hguard
    have hk0 : (0 : Int) ≤ k := le_trans (Int.ofNat_nonneg _) hle
    have hlen : (listingOf entries).length ≤ pyStart k (listingOf entries).length := by
      rw [pyStart, if_pos hk0]
      omega
    rw [List.take_of_length_le hlen]
    exact (List.perm_insertionSort ctimeDesc _).symm

/-! ## Claim C1 -/

/-- Counterexample to claim C1 as stated: with `maxBackups = 1` and a
deletion failure on the first over-limit snapshot (the `shutil.rmtree`
exception aborts the whole pruning loop and is swallowed at line 454), the
backup operation still completes, yet 3 > 1 matching snapshot directories
remain afterwards. -/
theorem perform_backup_retention_cex :
    ((perform_backup ⟨true, true, [⟨"Zomboid_Backup_t1", true, 1⟩,
          ⟨"Zomboid_Backup_t2", true, 2⟩]⟩
        "t3" 3 true (some 1) ["Zomboid_Backup_t2"]).1.entries.filter isSnapshotDir).length = 3
    ∧ (perform_backup ⟨true, true, [⟨"Zomboid_Backup_t1", true, 1⟩,
          ⟨"Zomboid_Backup_t2", true, 2⟩]⟩
        "t3" 3 true (some 1) ["Zomboid_Backup_t2"]).2 = .completed false := by
  decide

/-- Claim C1 (amended): after any completed backup operation with parsed
retention count `k ≥ 0`, provided every pruned deletion succeeds (deletion
is best-effort: a failing `rmtree` can leave more than `k`), the matching
snapshot directories under the backup root are exactly (a permutation of)
the first `k` entries of the newest-first listing taken after the new
snapshot was created: at most `k` remain, and every retained snapshot is
at least as recent as every pruned one.  Pruning happens inside
`perform_backup` itself, i.e. synchronously at the end of every backup. -/
theorem perform_backup_retention (st : FsBState) (ts : String) (ct : Nat) (copyOk : Bool)
    (k : Int) (rmFail : List String)
    (hsrc : st.sourceExists = true) (hk : 0 ≤ k)
    (hnd : ((listingOf (st.entries ++ [snapEntry ts ct])).map Entry.name).Nodup)
    (hfail : ∀ s ∈ (listingOf (st.entries ++ [snapEntry ts ct])).drop
        (pyStart k (listingOf (st.entries ++ [snapEntry ts ct])).length),
        s.name ∉ rmFail) :
    ((perform_backup st ts ct copyOk (some k) rmFail).1.entries.filter isSnapshotDir
        ~ (listingOf (st.entries ++ [snapEntry ts ct])).take k.toNat)
    ∧ ((perform_backup st ts ct copyOk (some k) rmFail).1.entries.filter isSnapshotDir).length
        ≤ k.toNat
    ∧ ∀ a ∈ (perform_backup st ts ct copyOk (some k) rmFail).1.entries.filter isSnapshotDir,
        ∀ b ∈ (listingOf (st.entries ++ [snapEntry ts ct])).drop k.toNat,
          b.ctime ≤ a.ctime := by
  have hentries : (perform_backup st ts ct copyOk (some k) rmFail).1.entries
      = cleanup_old_backups (some k) (st.entries ++ [snapEntry ts ct]) rmFail := by
    simp [perform_backup, hsrc]
  have hpy : pyStart k (listingOf (st.entries ++ [snapEntry ts ct])).length = k.toNat := by
    rw [pyStart, if_pos hk]
  have hperm := cleanup_retained_perm (st.entries ++ [snapEntry ts ct]) rmFail k hnd hfail
  rw [hpy] at hperm
  rw [hentries]
  refine ⟨hperm, ?_, ?_⟩
  · rw [hperm.length_eq, List.length_take]
    exact min_le_left _ _
  · intro a ha b hb
    have hamem : a ∈ (listingOf (st.entries ++ [snapEntry ts ct])).take k.toNat :=
      hperm.subset ha
    have hsorted : List.Sorted ctimeDesc (listingOf (st.entries ++ [snapEntry ts ct])) :=
      List.sorted_insertionSort ctimeDesc _
    have hpair : List.Pairwise ctimeDesc
        ((listingOf (st.entries ++ [snapEntry ts ct])).take k.toNat
          ++ (listingOf (st.entries ++ [snapEntry ts ct])).drop k.toNat) := by
      rw [List.take_append_drop]
      exact hsorted
    exact (List.pairwise_append.mp hpair).2.2 a hamem b hb

/-- Witness for C1 (amended): two old snapshots plus the new one, `k = 2`,
no deletion failures; the two newest remain. -/
theorem perform_backup_retention_witness :
    (FsBState.sourceExists ⟨true, true, [⟨"Zomboid_Backup_t1", true, 1⟩,
        ⟨"Zomboid_Backup_t2", true, 2⟩]⟩ = true)
    ∧ (0 : Int) ≤ 2
    ∧ ((perform_backup ⟨true, true, [⟨"Zomboid_Backup_t1", true, 1⟩,
          ⟨"Zomboid_Backup_t2", true, 2⟩]⟩ "t3" 3 true (some 2) []).1.entries.filter
            isSnapshotDir
        ~ (listingOf ([⟨"Zomboid_Backup_t1", true, 1⟩, ⟨"Zomboid_Backup_t2", true, 2⟩]
            ++ [snapEntry "t3" 3])).take (2 : Int).toNat) :=
  ⟨rfl, by decide,
    (perform_backup_retention ⟨true, true, [⟨"Zomboid_Backup_t1", true, 1⟩,
        ⟨"Zomboid_Backup_t2", true, 2⟩]⟩ "t3" 3 true 2 []
      rfl (by decide) (by decide) (by decide)).1⟩

/-! ## Claim C10 -/

/-- Counterexample to claim C10 as stated: with `maxBackups = -1 ≤ 0` the
claim predicts every matching snapshot is deleted, including the one just
created; in fact the Python slice `backup_folders[-1:]` selects only the
single oldest snapshot, so the just-created snapshot survives and matching
snapshots remain. -/
theorem nonpositive_retention_cex :
    snapEntry "t3" 3 ∈ (perform_backup ⟨true, true, [⟨"Zomboid_Backup_t1", true, 1⟩,
        ⟨"Zomboid_Backup_t2", true, 2⟩]⟩ "t3" 3 true (some (-1)) []).1.entries
    ∧ ((perform_backup ⟨true, true, [⟨"Zomboid_Backup_t1", true, 1⟩,
        ⟨"Zomboid_Backup_t2", true, 2⟩]⟩ "t3" 3 true (some (-1)) []).1.entries.filter
          isSnapshotDir) ≠ [] := by
  decide

/-- Claim C10 (amended): the data model's `maxBackups ≥ 1` constraint is
never checked.  For a parsed retention count `k ≤ 0` (and no deletion
failure), the retained matching snapshots are a permutation of the first
`pyStart k n` entries of the newest-first listing (`n` its length).  For
`k = 0` this means every matching snapshot is deleted, including the one
just created; for `k < 0`, however, the Python slice `folders[k:]` selects
only the `min(|k|, n)` oldest snapshots, so exactly those are deleted and
the `n - min(|k|, n)` newest are retained. -/
theorem perform_backup_nonpositive_retention (st : FsBState) (ts : String) (ct : Nat)
    (copyOk : Bool) (k : Int) (rmFail : List String)
    (hsrc : st.sourceExists = true) (hk : k ≤ 0)
    (hnd : ((listingOf (st.entries ++ [snapEntry ts ct])).map Entry.name).Nodup)
    (hfail : ∀ s ∈ (listingOf (st.entries ++ [snapEntry ts ct])).drop
        (pyStart k (listingOf (st.entries ++ [snapEntry ts ct])).length),
        s.name ∉ rmFail) :
    ((perform_backup st ts ct copyOk (some k) rmFail).1.entries.filter isSnapshotDir
        ~ (listingOf (st.entries ++ [snapEntry ts ct])).take
            (pyStart k (listingOf (st.entries ++ [snapEntry ts ct])).length))
    ∧ (k = 0 →
        (perform_backup st ts ct copyOk (some k) rmFail).1.entries.filter isSnapshotDir = [])
    ∧ (k < 0 →
        ((perform_backup st ts ct copyOk (some k) rmFail).1.entries.filter
            isSnapshotDir).length
          = (listingOf (st.entries ++ [snapEntry ts ct])).length
            - min (listingOf (st.entries ++ [snapEntry ts ct])).length (-k).toNat) := by
  have hentries : (perform_backup st ts ct copyOk (some k) rmFail).1.entries
      = cleanup_old_backups (some k) (st.entries ++ [snapEntry ts ct]) rmFail := by
    simp [perform_backup, hsrc]
  have hperm := cleanup_retained_perm (st.entries ++ [snapEntry ts ct]) rmFail k hnd hfail
  rw [hentries]
  refine ⟨hperm, ?_, ?_⟩
  · intro hk0
    have hpy : pyStart k (listingOf (st.entries ++ [snapEntry ts ct])).length = 0 := by
      rw [hk0, pyStart, if_pos le_rfl]
      rfl
    rw [hpy, List.take_zero] at hperm
    exact hperm.eq_nil
  · intro hkneg
    have hpy : pyStart k (listingOf (st.entries ++ [snapEntry ts ct])).length
        = (listingOf (st.entries ++ [snapEntry ts ct])).length
          - min (listingOf (st.entries ++ [snapEntry ts ct])).length (-k).toNat := by
      rw [pyStart, if_neg (by omega)]
    rw [hpy] at hperm
    rw [hperm.length_eq, List.length_take]
    omega

/-- Witness for C10 (amended): `k = -1` with three snapshots; the two
newest remain (3 - min(3,1) = 2). -/
theorem perform_backup_nonpositive_retention_witness :
    (FsBState.sourceExists ⟨true, true, [⟨"Zomboid_Backup_t1", true, 1⟩,
        ⟨"Zomboid_Backup_t2", true, 2⟩]⟩ = true)
    ∧ ((-1 : Int) < 0)
    ∧ ((perform_backup ⟨true, true, [⟨"Zomboid_Backup_t1", true, 1⟩,
          ⟨"Zomboid_Backup_t2", true, 2⟩]⟩ "t3" 3 true (some (-1)) []).1.entries.filter
            isSnapshotDir).length
        = (listingOf ([⟨"Zomboid_Backup_t1", true, 1⟩, ⟨"Zomboid_Backup_t2", true, 2⟩]
            ++ [snapEntry "t3" 3])).length
          - min (listingOf ([⟨"Zomboid_Backup_t1", true, 1⟩, ⟨"Zomboid_Backup_t2", true, 2⟩]
            ++ [snapEntry "t3" 3])).length (-(-1 : Int)).toNat :=
  ⟨rfl, by decide,
    (perform_backup_nonpositive_retention ⟨true, true, [⟨"Zomboid_Backup_t1", true, 1⟩,
        ⟨"Zomboid_Backup_t2", true, 2⟩]⟩ "t3" 3 true (-1) []
      rfl (by decide) (by decide) (by decide)).2.2 (by decide)⟩

end Zomboid
